import Mathlib

/-!
Verification development for the SWIFT/BIC bank-codes core
(reader, parser/validator, orchestration service, repository).

The Go source is shallowly embedded: strings are modelled as Lean
`String`s over their character lists (the ASCII fragment of Go's
byte-oriented `len`, `strings.ToUpper`, `strings.TrimSpace`,
`strings.HasSuffix` and `s[:8]`; every code, country and field the
validators accept is ASCII, since the regular expressions only admit
ASCII characters), fallible operations return `Except`, the SQL store
is a list of rows, and a Go runtime panic (slice out of bounds) is a
distinguished outcome.
-/

namespace SwiftCodes

/-- Decidable equality for `Except`, so that concrete runs of the
fallible operations can be settled by `decide`. -/
instance {ε α : Type} [DecidableEq ε] [DecidableEq α] : DecidableEq (Except ε α) := fun a b =>
  match a, b with
  | .ok x, .ok y =>
    if h : x = y then .isTrue (by rw [h]) else .isFalse (fun hh => h (Except.ok.inj hh))
  | .error x, .error y =>
    if h : x = y then .isTrue (by rw [h]) else .isFalse (fun hh => h (Except.error.inj hh))
  | .ok _, .error _ => .isFalse (fun hh => Except.noConfusion hh)
  | .error _, .ok _ => .isFalse (fun hh => Except.noConfusion hh)

/-! ### ASCII-fragment models of the Go string primitives -/

/-- Character class `[A-Z]`. -/
def isUpperAlpha (c : Char) : Bool := 'A' ≤ c && c ≤ 'Z'

/-- Character class `[a-z]`. -/
def isLowerAlpha (c : Char) : Bool := 'a' ≤ c && c ≤ 'z'

/-- Character class `[0-9]`. -/
def isDigitChar (c : Char) : Bool := '0' ≤ c && c ≤ '9'

/-- Character class `[A-Z0-9]`. -/
def isUpperAlnum (c : Char) : Bool := isUpperAlpha c || isDigitChar c

/-- One character of `strings.ToUpper` (ASCII fragment). -/
def upperChar (c : Char) : Char :=
  if isLowerAlpha c then Char.ofNat (c.toNat - 32) else c

/-- `strings.ToUpper` (ASCII fragment). -/
def goToUpper (s : String) : String := ⟨s.data.map upperChar⟩

/-- Go `len(s)`: byte length; equals character count on ASCII data. -/
def goLen (s : String) : Nat := s.data.length

/-- `strings.HasSuffix s suffix`. -/
def goHasSuffix (s suffix : String) : Bool := suffix.data.isSuffixOf s.data

/-- The Go slice `s[:n]` when it is in bounds. -/
def goTake (n : Nat) (s : String) : String := ⟨s.data.take n⟩

/-- The Go slice `s[:8]`; `none` models the runtime panic
(slice bounds out of range) raised when `len(s) < 8`. -/
def goSlice8 (s : String) : Option String :=
  if 8 ≤ goLen s then some (goTake 8 s) else none

/-- `unicode.IsSpace` (ASCII fragment): space and the control range
TAB (9) through CR (13). -/
def goIsSpace (c : Char) : Bool := c = ' ' || (9 ≤ c.toNat && c.toNat ≤ 13)

/-- `strings.TrimSpace` (ASCII fragment). -/
def goTrim (s : String) : String :=
  ⟨((s.data.dropWhile goIsSpace).reverse.dropWhile goIsSpace).reverse⟩

/-! ### The two validation regular expressions

`^[A-Z]{4}[A-Z]{2}[A-Z0-9]{2}([A-Z0-9]{3})?$` (written
`^[A-Z]{6}[A-Z0-9]{2}([A-Z0-9]{3})?$` in the parser and service) matches
exactly the strings of length 8 or 11 whose first six characters are
uppercase letters and whose remaining characters are uppercase
alphanumerics. `^[A-Z]{2}$` matches exactly two uppercase letters. -/

/-- Full match of the anchored BIC pattern used by parser and service. -/
def bicMatch (s : String) : Bool :=
  (s.data.length == 8 || s.data.length == 11)
    && (s.data.take 6).all isUpperAlpha
    && (s.data.drop 6).all isUpperAlnum

/-- Full match of the anchored ISO2 country pattern `^[A-Z]{2}$`. -/
def countryCodeMatch (s : String) : Bool :=
  s.data.length == 2 && s.data.all isUpperAlpha

/-! ### Data model -/

/-- `readers.SwiftBankRecord`: the loosely-typed intermediate record
produced by the reader (1-based row index for error reporting). -/
structure SwiftBankRecord where
  index : Nat
  swiftCode : String
  bankName : String
  countryISOCode : String
  address : String
  countryName : String
deriving DecidableEq

/-- `models.SwiftBank`: the canonical entity
(`internal/models/swift_bank.go`). -/
structure SwiftBank where
  swiftCode : String
  swiftCodeBase : String
  countryISOCode : String
  bankName : String
  isHeadquarter : Bool
  address : String
  countryName : String
deriving DecidableEq

/-! ### Domain validator (`parsers/swift_banks_parser.go`, `ParseSwiftBanks`) -/

/-- The distinct failure reasons of `ParseSwiftBanks`, in source order. -/
inductive ParseError where
  | emptySwiftCode (index : Nat)
  | badBicFormat (code : String) (index : Nat)
  | swiftCodeTooLong (code : String) (index : Nat)
  | emptyBankName (code : String)
  | bankNameTooLong (name code : String)
  | emptyCountryISOCode (code : String)
  | badCountryISOFormat (country name : String)
  | emptyAddress (code : String)
  | addressTooLong (code : String)
  | emptyCountryName (code : String)
  | countryNameTooLong (cname name : String)
deriving DecidableEq

/-- Validation and conversion of one record, exactly in the order of the
checks in `ParseSwiftBanks`; the derived fields are computed after all
checks pass. -/
def parseRecord (r : SwiftBankRecord) : Except ParseError SwiftBank :=
  if r.swiftCode = "" then .error (.emptySwiftCode r.index)
  else if !(bicMatch r.swiftCode) then .error (.badBicFormat r.swiftCode r.index)
  else if 15 < goLen r.swiftCode then .error (.swiftCodeTooLong r.swiftCode r.index)
  else if r.bankName = "" then .error (.emptyBankName r.swiftCode)
  else if 100 < goLen r.bankName then .error (.bankNameTooLong r.bankName r.swiftCode)
  else if r.countryISOCode = "" then .error (.emptyCountryISOCode r.swiftCode)
  else if !(countryCodeMatch r.countryISOCode) then
    .error (.badCountryISOFormat r.countryISOCode r.bankName)
  else if r.address = "" then .error (.emptyAddress r.swiftCode)
  else if 200 < goLen r.address then .error (.addressTooLong r.swiftCode)
  else if r.countryName = "" then .error (.emptyCountryName r.swiftCode)
  else if 100 < goLen r.countryName then .error (.countryNameTooLong r.countryName r.bankName)
  else
    .ok { swiftCode := r.swiftCode
          swiftCodeBase :=
            if 8 ≤ goLen r.swiftCode then goTake 8 r.swiftCode else r.swiftCode
          countryISOCode := r.countryISOCode
          bankName := r.bankName
          isHeadquarter := goHasSuffix r.swiftCode "XXX"
          address := r.address
          countryName := r.countryName }

/-- `ParseSwiftBanks`: records are converted in order; the first invalid
record aborts the whole batch. -/
def parseSwiftBanks : List SwiftBankRecord → Except ParseError (List SwiftBank)
  | [] => .ok []
  | r :: rs =>
    match parseRecord r with
    | .error e => .error e
    | .ok b =>
      match parseSwiftBanks rs with
      | .error e => .error e
      | .ok bs => .ok (b :: bs)

/-! ### Repository errors and results (`repositories/swift_banks_repository.go`) -/

/-- Storage-layer errors (`ErrNotFound`, `ErrDuplicate`, plus wrapped
driver failures). -/
inductive RepoError where
  | notFound
  | duplicate
  | invalidData
  | driver (msg : String)
deriving DecidableEq

/-- `SwiftBankDetail`: a bank together with its branches. -/
structure SwiftBankDetail where
  bank : SwiftBank
  branches : List SwiftBank
deriving DecidableEq

/-! ### Orchestration service (`services/swift_service.go`) -/

/-- Domain-level errors of the service (`ErrNotFound`, `ErrInvalidInput`,
`ErrAlreadyExists`), a passthrough for unrecognized repository errors,
and the runtime panic of the unchecked `bank.SwiftCode[:8]` slice. -/
inductive ServiceError where
  | notFound
  | invalidInput
  | alreadyExists
  | panicOutOfBounds
  | repo (e : RepoError)
deriving DecidableEq

/-- The validation, normalization and defaulting phase of
`CreateSwiftCode`, before the repository is called: regex checks on the
uppercased code and country, non-empty bank name, then uppercase both,
recompute `IsHeadquarter` from the `XXX` suffix, and default
`SwiftCodeBase` to `SwiftCode[:8]` only when it is empty. -/
def createSwiftCodeNormalize (bank : SwiftBank) : Except ServiceError SwiftBank :=
  if !(bicMatch (goToUpper bank.swiftCode)) then .error .invalidInput
  else if !(countryCodeMatch (goToUpper bank.countryISOCode)) then .error .invalidInput
  else if bank.bankName = "" then .error .invalidInput
  else
    match (if bank.swiftCodeBase = "" then goSlice8 (goToUpper bank.swiftCode)
           else some bank.swiftCodeBase) with
    | none => .error .panicOutOfBounds
    | some base =>
      .ok { bank with
            swiftCode := goToUpper bank.swiftCode
            countryISOCode := goToUpper bank.countryISOCode
            isHeadquarter := goHasSuffix (goToUpper bank.swiftCode) "XXX"
            swiftCodeBase := base }

/-- A service call result together with how many repository calls the
service issued while producing it. -/
structure ServiceCall (α : Type) where
  result : α
  repoCalls : Nat
deriving DecidableEq

/-- `CreateSwiftCode`: validate and normalize, then call
`Repository.Create` once, translating `ErrDuplicate` into
`ErrAlreadyExists`. On success the result carries the normalized entity
that was handed to the repository (the Go code mutates `*bank` in
place). -/
def createSwiftCode (repoC : SwiftBank → Except RepoError Unit)
    (bank : SwiftBank) : ServiceCall (Except ServiceError SwiftBank) :=
  match createSwiftCodeNormalize bank with
  | .error e => ⟨.error e, 0⟩
  | .ok b =>
    match repoC b with
    | .ok _ => ⟨.ok b, 1⟩
    | .error .duplicate => ⟨.error .alreadyExists, 1⟩
    | .error e => ⟨.error (.repo e), 1⟩

/-- `GetSwiftCodeDetails`: regex check on the uppercased code, then one
`Repository.GetByCode` call with the original code, translating
`ErrNotFound`. -/
def getSwiftCodeDetails (repoGet : String → Except RepoError SwiftBankDetail)
    (code : String) : ServiceCall (Except ServiceError SwiftBankDetail) :=
  if !(bicMatch (goToUpper code)) then ⟨.error .invalidInput, 0⟩
  else
    match repoGet code with
    | .error .notFound => ⟨.error .notFound, 1⟩
    | .error e => ⟨.error (.repo e), 1⟩
    | .ok d => ⟨.ok d, 1⟩

/-! ### Repository over an in-memory table model

The Trino table `swift_catalog.default_schema.swift_banks` is modelled
as a list of rows; `QueryRow` takes the first matching row, `SELECT`
with a `WHERE` clause is a filter. -/

/-- `GetBranchesByHQBase`:
`SELECT ... WHERE swift_code_base = ? AND is_headquarter = false`. -/
def getBranchesByHQBase (table : List SwiftBank) (hqBase : String) : List SwiftBank :=
  table.filter (fun b => b.swiftCodeBase == hqBase && b.isHeadquarter == false)

/-- `getBankByCode`: `SELECT ... WHERE swift_code = ?` via `QueryRow`;
`sql.ErrNoRows` becomes `ErrNotFound`. -/
def getBankByCode (table : List SwiftBank) (code : String) : Except RepoError SwiftBank :=
  match table.find? (fun b => b.swiftCode == code) with
  | none => .error .notFound
  | some b => .ok b

/-- `GetByCode`: look up the uppercased code; when the row is a
headquarters additionally fetch its branches by `swift_code_base`. -/
def getByCode (table : List SwiftBank) (code : String) : Except RepoError SwiftBankDetail :=
  match getBankByCode table (goToUpper code) with
  | .error e => .error e
  | .ok bank =>
    if bank.isHeadquarter then
      .ok { bank := bank, branches := getBranchesByHQBase table bank.swiftCodeBase }
    else
      .ok { bank := bank, branches := [] }

/-- The per-row normalization shared verbatim by `Create` and
`CreateBatch`: uppercase code and country, and when `SwiftCodeBase` is
empty derive it by the unchecked slice `bank.SwiftCode[:8]` (`none`
models the panic on a code shorter than 8). -/
def normalizeBankForInsert (bank : SwiftBank) : Option SwiftBank :=
  let code := goToUpper bank.swiftCode
  let country := goToUpper bank.countryISOCode
  match (if bank.swiftCodeBase = "" then goSlice8 code else some bank.swiftCodeBase) with
  | none => none
  | some base =>
    some { bank with swiftCode := code, countryISOCode := country, swiftCodeBase := base }

/-- Outcome of `Repository.Create` on the table model. -/
inductive CreateOutcome where
  | ok (newTable : List SwiftBank)
  | failed (e : RepoError)
  | panicked
deriving DecidableEq

/-- `Repository.Create`: `checkDuplicate` on the uppercased code first
(`ErrDuplicate` when a row exists), then normalize and insert. -/
def repoCreate (table : List SwiftBank) (bank : SwiftBank) : CreateOutcome :=
  if table.any (fun b => b.swiftCode == goToUpper bank.swiftCode) then .failed .duplicate
  else
    match normalizeBankForInsert bank with
    | none => .panicked
    | some b => .ok (table ++ [b])

/-- `const batchSize = 100`. -/
def batchSize : Nat := 100

/-- The chunk builder of the `CreateBatch` loop
(`for i := 0; i < totalRows; i += batchSize`): `cap` is the remaining
capacity of the chunk under construction, `acc` its rows in reverse. -/
def chunksGo {α : Type} : Nat → List α → List α → List (List α)
  | _, acc, [] => if acc.isEmpty then [] else [acc.reverse]
  | 0, acc, x :: xs => acc.reverse :: chunksGo (batchSize - 1) [x] xs
  | cap + 1, acc, x :: xs => chunksGo cap (x :: acc) xs

/-- `banks[i:endIdx]` for `i = 0, 100, 200, ...`: the input split into
chunks of `batchSize = 100` (the last chunk may be shorter). -/
def chunksOf100 {α : Type} : List α → List (List α)
  | [] => []
  | x :: xs => chunksGo (batchSize - 1) [x] xs

/-- Per-chunk normalization loop of `CreateBatch` (`none` models the
panic of `bank.SwiftCode[:8]` on the first offending row). -/
def normalizeChunk : List SwiftBank → Option (List SwiftBank)
  | [] => some []
  | b :: bs =>
    match normalizeBankForInsert b with
    | none => none
    | some nb =>
      match normalizeChunk bs with
      | none => none
      | some nbs => some (nb :: nbs)

/-- What `CreateBatch` returns to its caller: `nil`, or the error
`trino batch insert failed for batch <i+1>-<endIdx>: <driver message>`
for the failing chunk, or a runtime panic. This is the whole
caller-visible result — no row count is part of it. -/
inductive BatchOutcome where
  | ok
  | chunkFailed (startRow endRow : Nat) (msg : String)
  | panicked
deriving DecidableEq

/-- Observable trace of one `CreateBatch` call: the rows inserted by the
chunks whose statement committed, how many chunk statements were issued,
the internal `insertedRows` counter (only printed, never returned), and
the caller-visible outcome. -/
structure BatchTrace where
  newRows : List SwiftBank
  chunksAttempted : Nat
  insertedRows : Nat
  outcome : BatchOutcome
deriving DecidableEq

/-- The chunk loop of `CreateBatch`: normalize the chunk, execute its
`INSERT` statement (`exec` returns the driver's `RowsAffected` or an
error), abort on the first failure, otherwise accumulate and continue.
`offset` is the loop variable `i`. -/
def runChunks (exec : List SwiftBank → Except String Nat) (offset : Nat) :
    List (List SwiftBank) → BatchTrace
  | [] => ⟨[], 0, 0, .ok⟩
  | c :: rest =>
    match normalizeChunk c with
    | none => ⟨[], 0, 0, .panicked⟩
    | some nc =>
      match exec nc with
      | .error msg => ⟨[], 1, 0, .chunkFailed (offset + 1) (offset + c.length) msg⟩
      | .ok affected =>
        let t := runChunks exec (offset + c.length) rest
        ⟨nc ++ t.newRows, t.chunksAttempted + 1, affected + t.insertedRows, t.outcome⟩

/-- `Repository.CreateBatch` over the execution oracle `exec`. -/
def createBatch (exec : List SwiftBank → Except String Nat)
    (banks : List SwiftBank) : BatchTrace :=
  runChunks exec 0 (chunksOf100 banks)

/-! ### Record reader (`readers/csv/csv_swift_banks_reader.go`)

The CSV stream is modelled after tokenization: a list of rows, each a
list of field strings (the header first). Go's `encoding/csv` reader
with the default `FieldsPerRecord = 0` fixes the field count at the
first record's count (the header) and rejects every later row with a
different count (`ErrFieldCount`), which `LoadSwiftBanks` wraps as
`row N: ...`. -/

/-- `strings.Split s ","` as a character-list recursion
(empty fields kept). -/
def splitCommaGo : List Char → List Char → List (List Char)
  | acc, [] => [acc.reverse]
  | acc, c :: cs =>
    if c = ',' then acc.reverse :: splitCommaGo [] cs
    else splitCommaGo (c :: acc) cs

/-- `strings.Split s ","`. -/
def goSplitComma (s : String) : List String :=
  (splitCommaGo [] s.data).map (fun cs => ⟨cs⟩)

/-- The hardcoded `expectedHeader` constant. -/
def expectedHeader : String :=
  "COUNTRY ISO2 CODE,SWIFT CODE,CODE TYPE,NAME,ADDRESS,TOWN NAME,COUNTRY NAME,TIME ZONE"

/-- `expectedHeaders := strings.Split(expectedHeader, ",")`. -/
def expectedHeaders : List String := goSplitComma expectedHeader

/-- The distinct failures of `LoadSwiftBanks`, in source order:
wrong header length, wrong header column, a row rejected by the csv
reader's field-count enforcement (wrapped as `row N: ...`), and the
reader's own `row N: invalid length` check. -/
inductive ReadError where
  | headerLength (expected got : Nat)
  | headerMismatch (expected : String) (idx : Nat) (got : String)
  | csvFieldCount (rowNum : Nat)
  | rowInvalidLength (rowNum : Nat)
deriving DecidableEq

/-- The header-column comparison loop: case-insensitive and
space-trimmed, reporting the first mismatching index. -/
def checkCols : Nat → List String → List String → Except ReadError Unit
  | _, [], _ => .ok ()
  | _, _ :: _, [] => .ok ()
  | i, c :: cs, e :: es =>
    if goTrim (goToUpper c) = goTrim (goToUpper e) then checkCols (i + 1) cs es
    else .error (.headerMismatch e i c)

/-- `headerMap[strings.ToUpper(col)] = i` (keys are the raw uppercased
columns, not trimmed; on a validated header all keys are distinct). -/
def headerMapOf (header : List String) : List (String × Nat) :=
  header.enum.map (fun p => (goToUpper p.2, p.1))

/-- Go map indexing with the zero value `0` for a missing key. -/
def lookupIdx (m : List (String × Nat)) (key : String) : Nat :=
  ((m.find? (fun p => p.1 == key)).map (fun p => p.2)).getD 0

/-- The row loop of `LoadSwiftBanks`: the csv reader's field-count
enforcement first, then the reader's own `len(row) != 5` check, then
field extraction through `headerMap` with `TrimSpace`. -/
def readRows (fieldCount : Nat) (hmap : List (String × Nat)) :
    Nat → List (List String) → Except ReadError (List SwiftBankRecord)
  | _, [] => .ok []
  | rowNum, row :: rest =>
    if row.length ≠ fieldCount then .error (.csvFieldCount rowNum)
    else if row.length ≠ 5 then .error (.rowInvalidLength rowNum)
    else
      let getVal := fun (field : String) =>
        goTrim (row.getD (lookupIdx hmap (goToUpper field)) "")
      let record : SwiftBankRecord :=
        { index := rowNum
          swiftCode := getVal "SWIFT CODE"
          bankName := getVal "NAME"
          countryISOCode := getVal "COUNTRY ISO2 CODE"
          address := getVal "ADDRESS"
          countryName := getVal "COUNTRY NAME" }
      match readRows fieldCount hmap (rowNum + 1) rest with
      | .error e => .error e
      | .ok rs => .ok (record :: rs)

/-- `LoadSwiftBanks`: reading the header of a zero-byte input yields
`io.EOF`, which the source answers with an empty record slice and a nil
error; otherwise the header is validated and the rows are read. -/
def loadSwiftBanks (input : List (List String)) : Except ReadError (List SwiftBankRecord) :=
  match input with
  | [] => .ok []
  | header :: rows =>
    if header.length ≠ expectedHeaders.length then
      .error (.headerLength expectedHeaders.length header.length)
    else
      match checkCols 0 header expectedHeaders with
      | .error e => .error e
      | .ok _ => readRows header.length (headerMapOf header) 1 rows

/-! ### The enumerated-type parser variant (`ParseSwiftData`)

The second schema variant of the source: entity type
`HEADQUARTERS`/`BRANCH` with field `hq_swift_base`. Its CSV reader sets
`FieldsPerRecord = -1` (no field-count enforcement). The `CreatedAt`/
`UpdatedAt` timestamps (`time.Now()`) are outside the embedding and
omitted. -/

/-- `models.SwiftCodeEntity`. -/
inductive SwiftCodeEntity where
  | headquarters
  | branch
deriving DecidableEq

/-- `model.SwiftBank` of the enumerated-type variant (timestamps
omitted). -/
structure SwiftBankE where
  swiftCode : String
  hqSwiftBase : String
  countryISOCode : String
  bankName : String
  entityType : SwiftCodeEntity
deriving DecidableEq

/-- `unicode.IsControl` (ASCII fragment): C0 controls and DEL. -/
def goIsControl (c : Char) : Bool := c.toNat < 32 || c.toNat = 127

/-- `strings.Fields` (split on whitespace runs, no empty fields), as a
character-list recursion with the current field in reverse. -/
def fieldsGo : List Char → List Char → List (List Char)
  | acc, [] => if acc.isEmpty then [] else [acc.reverse]
  | acc, c :: cs =>
    if goIsSpace c then
      if acc.isEmpty then fieldsGo [] cs else acc.reverse :: fieldsGo [] cs
    else fieldsGo (c :: acc) cs

/-- `sanitizeBankName`: normalize whitespace
(`strings.Join(strings.Fields(name), " ")`) then strip control
characters. -/
def sanitizeBankName (s : String) : String :=
  let joined := " ".intercalate ((fieldsGo [] s.data).map (fun cs => ⟨cs⟩))
  ⟨joined.data.filter (fun c => !(goIsControl c))⟩

/-- The failure reasons of `validateSwiftBankEntry`, in source order. -/
inductive EntryError where
  | invalidSwiftCode (code : String)
  | invalidCountryCode (code : String)
  | invalidEntityType
  | nameTooShort
  | nameTooLong
  | hqWithoutSuffix
  | branchWithSuffix
  | wrongHqBase
deriving DecidableEq

/-- `validateSwiftBankEntry`; the `bank.SwiftCode[:8]` comparison is
only reached after `validateSwiftCode` succeeded, so the code has at
least 8 characters there. -/
def validateSwiftBankEntry (bank : SwiftBankE) : Except EntryError Unit :=
  if !(bicMatch bank.swiftCode) then .error (.invalidSwiftCode bank.swiftCode)
  else if !(countryCodeMatch bank.countryISOCode) then
    .error (.invalidCountryCode bank.countryISOCode)
  else if bank.entityType ≠ .headquarters ∧ bank.entityType ≠ .branch then
    .error .invalidEntityType
  else if goLen bank.bankName < 2 then .error .nameTooShort
  else if 255 < goLen bank.bankName then .error .nameTooLong
  else if bank.entityType = .headquarters ∧ !(goHasSuffix bank.swiftCode "XXX") then
    .error .hqWithoutSuffix
  else if bank.entityType = .branch ∧ goHasSuffix bank.swiftCode "XXX" then
    .error .branchWithSuffix
  else if bank.hqSwiftBase ≠ goTake 8 bank.swiftCode then .error .wrongHqBase
  else .ok ()

/-- The failures of `ParseSwiftData`, in source order. -/
inductive ParseDataError where
  | headerRead
  | headerInsufficient
  | recordInsufficient (line : Nat)
  | missingRequiredField (line : Nat)
  | invalidSwiftCode (line : Nat) (code : String)
  | invalidCountryCode (line : Nat) (code : String)
  | validationFailed (line : Nat) (reason : EntryError)
  | noValidRecords
deriving DecidableEq

/-- The record loop of `ParseSwiftData`: `seen` is the `uniqueCodes`
set, `ln` the line number of the previous record (the header is line
1); a record whose code was already seen is skipped. -/
def parseDataRows (seen : List String) (ln : Nat) :
    List (List String) → Except ParseDataError (List SwiftBankE)
  | [] => .ok []
  | record :: rest =>
    if record.length < 4 then .error (.recordInsufficient (ln + 1))
    else if goToUpper (goTrim (record.getD 0 "")) = "" ∨
        goToUpper (goTrim (record.getD 1 "")) = "" ∨
        sanitizeBankName (record.getD 3 "") = "" then
      .error (.missingRequiredField (ln + 1))
    else if seen.contains (goToUpper (goTrim (record.getD 1 ""))) then
      parseDataRows seen (ln + 1) rest
    else if !(bicMatch (goToUpper (goTrim (record.getD 1 "")))) then
      .error (.invalidSwiftCode (ln + 1) (goToUpper (goTrim (record.getD 1 ""))))
    else if !(countryCodeMatch (goToUpper (goTrim (record.getD 0 "")))) then
      .error (.invalidCountryCode (ln + 1) (goToUpper (goTrim (record.getD 0 ""))))
    else
      match validateSwiftBankEntry
          { swiftCode := goToUpper (goTrim (record.getD 1 ""))
            hqSwiftBase := goTake 8 (goToUpper (goTrim (record.getD 1 "")))
            countryISOCode := goToUpper (goTrim (record.getD 0 ""))
            bankName := sanitizeBankName (record.getD 3 "")
            entityType :=
              if goHasSuffix (goToUpper (goTrim (record.getD 1 ""))) "XXX" then .headquarters
              else .branch } with
      | .error e => .error (.validationFailed (ln + 1) e)
      | .ok _ =>
        match parseDataRows (goToUpper (goTrim (record.getD 1 "")) :: seen) (ln + 1) rest with
        | .error e => .error e
        | .ok banks =>
          .ok ({ swiftCode := goToUpper (goTrim (record.getD 1 ""))
                 hqSwiftBase := goTake 8 (goToUpper (goTrim (record.getD 1 "")))
                 countryISOCode := goToUpper (goTrim (record.getD 0 ""))
                 bankName := sanitizeBankName (record.getD 3 "")
                 entityType :=
                   if goHasSuffix (goToUpper (goTrim (record.getD 1 ""))) "XXX" then
                     SwiftCodeEntity.headquarters
                   else SwiftCodeEntity.branch } :: banks)

/-- `ParseSwiftData`: header must exist and have at least 4 columns
(content is not checked), then the record loop; an empty output is
itself an error. -/
def parseSwiftData (input : List (List String)) : Except ParseDataError (List SwiftBankE) :=
  match input with
  | [] => .error .headerRead
  | header :: rest =>
    if header.length < 4 then .error .headerInsufficient
    else
      match parseDataRows [] 1 rest with
      | .error e => .error e
      | .ok banks => if banks.isEmpty then .error .noValidRecords else .ok banks

/-! ### Helper lemmas -/

/-- A string matching the anchored BIC pattern has exactly 8 or 11
characters. -/
theorem bicMatch_length {s : String} (h : bicMatch s = true) :
    s.data.length = 8 ∨ s.data.length = 11 := by
  simp only [bicMatch, Bool.and_eq_true, Bool.or_eq_true, beq_iff_eq] at h
  exact h.1.1

/-- Inversion of a successful `parseRecord`: all checks passed and the
produced entity is the record with the derived fields filled in. -/
theorem parseRecord_ok {r : SwiftBankRecord} {b : SwiftBank}
    (h : parseRecord r = .ok b) :
    bicMatch r.swiftCode = true ∧
    b = { swiftCode := r.swiftCode
          swiftCodeBase :=
            if 8 ≤ goLen r.swiftCode then goTake 8 r.swiftCode else r.swiftCode
          countryISOCode := r.countryISOCode
          bankName := r.bankName
          isHeadquarter := goHasSuffix r.swiftCode "XXX"
          address := r.address
          countryName := r.countryName } := by
  rw [parseRecord] at h
  by_cases h1 : r.swiftCode = ""
  · rw [if_pos h1] at h; exact Except.noConfusion h
  rw [if_neg h1] at h
  by_cases h2 : (!bicMatch r.swiftCode) = true
  · rw [if_pos h2] at h; exact Except.noConfusion h
  rw [if_neg h2] at h
  by_cases h3 : 15 < goLen r.swiftCode
  · rw [if_pos h3] at h; exact Except.noConfusion h
  rw [if_neg h3] at h
  by_cases h4 : r.bankName = ""
  · rw [if_pos h4] at h; exact Except.noConfusion h
  rw [if_neg h4] at h
  by_cases h5 : 100 < goLen r.bankName
  · rw [if_pos h5] at h; exact Except.noConfusion h
  rw [if_neg h5] at h
  by_cases h6 : r.countryISOCode = ""
  · rw [if_pos h6] at h; exact Except.noConfusion h
  rw [if_neg h6] at h
  by_cases h7 : (!countryCodeMatch r.countryISOCode) = true
  · rw [if_pos h7] at h; exact Except.noConfusion h
  rw [if_neg h7] at h
  by_cases h8 : r.address = ""
  · rw [if_pos h8] at h; exact Except.noConfusion h
  rw [if_neg h8] at h
  by_cases h9 : 200 < goLen r.address
  · rw [if_pos h9] at h; exact Except.noConfusion h
  rw [if_neg h9] at h
  by_cases h10 : r.countryName = ""
  · rw [if_pos h10] at h; exact Except.noConfusion h
  rw [if_neg h10] at h
  by_cases h11 : 100 < goLen r.countryName
  · rw [if_pos h11] at h; exact Except.noConfusion h
  rw [if_neg h11] at h
  exact ⟨by simpa using h2, (Except.ok.inj h).symm⟩

/-- Every entity in a successful `ParseSwiftBanks` output comes from
one of the input records via `parseRecord`. -/
theorem parseSwiftBanks_ok_mem :
    ∀ {records : List SwiftBankRecord} {banks : List SwiftBank},
      parseSwiftBanks records = .ok banks →
      ∀ b ∈ banks, ∃ r, r ∈ records ∧ parseRecord r = .ok b := by
  intro records
  induction records with
  | nil =>
    intro banks h b hb
    cases Except.ok.inj h
    cases hb
  | cons a rs ih =>
    intro banks h b hb
    rw [parseSwiftBanks] at h
    cases hpa : parseRecord a with
    | error e => rw [hpa] at h; exact Except.noConfusion h
    | ok b0 =>
      rw [hpa] at h
      cases hps : parseSwiftBanks rs with
      | error e => rw [hps] at h; exact Except.noConfusion h
      | ok bs =>
        rw [hps] at h
        cases Except.ok.inj h
        cases hb with
        | head => exact ⟨a, List.mem_cons_self a rs, hpa⟩
        | tail _ hmem =>
          obtain ⟨r, hr, hok⟩ := ih hps b hmem
          exact ⟨r, List.mem_cons_of_mem a hr, hok⟩

/-- A record whose code has fewer than 8 characters fails
`parseRecord` (either the emptiness or the BIC-format check). -/
theorem parseRecord_short {r : SwiftBankRecord} (h : goLen r.swiftCode < 8) :
    ∃ e, parseRecord r = .error e := by
  rw [parseRecord]
  by_cases h1 : r.swiftCode = ""
  · rw [if_pos h1]; exact ⟨_, rfl⟩
  rw [if_neg h1]
  by_cases h2 : (!bicMatch r.swiftCode) = true
  · rw [if_pos h2]; exact ⟨_, rfl⟩
  exfalso
  have hb : bicMatch r.swiftCode = true := by simpa using h2
  have hlen : goLen r.swiftCode = r.swiftCode.data.length := rfl
  rcases bicMatch_length hb with h8 | h11 <;> omega

/-- A record that fails `parseRecord` makes the whole batch fail
(possibly with an earlier record's error). -/
theorem parseSwiftBanks_error_of_mem :
    ∀ {records : List SwiftBankRecord} {r : SwiftBankRecord},
      r ∈ records → (∃ e, parseRecord r = .error e) →
      ∃ e, parseSwiftBanks records = .error e := by
  intro records
  induction records with
  | nil => intro r hr; cases hr
  | cons a rs ih =>
    intro r hr he
    cases hpa : parseRecord a with
    | error e => exact ⟨e, by rw [parseSwiftBanks, hpa]⟩
    | ok b0 =>
      cases hr with
      | head =>
        obtain ⟨e, he⟩ := he
        rw [he] at hpa
        exact Except.noConfusion hpa
      | tail _ hmem =>
        obtain ⟨e, he2⟩ := ih hmem he
        exact ⟨e, by rw [parseSwiftBanks, hpa, he2]⟩

/-- Inversion of the validation phase of `CreateSwiftCode`: the
headquarters flag of the entity handed to the repository is derived
from the `XXX` suffix, and when the caller left the base empty it is
the first 8 characters of the normalized code. -/
theorem createSwiftCodeNormalize_ok {bank b : SwiftBank}
    (h : createSwiftCodeNormalize bank = .ok b) :
    b.isHeadquarter = goHasSuffix b.swiftCode "XXX" ∧
    (bank.swiftCodeBase = "" → b.swiftCodeBase = goTake 8 b.swiftCode) := by
  rw [createSwiftCodeNormalize] at h
  by_cases h1 : (!bicMatch (goToUpper bank.swiftCode)) = true
  · rw [if_pos h1] at h; exact Except.noConfusion h
  rw [if_neg h1] at h
  by_cases h2 : (!countryCodeMatch (goToUpper bank.countryISOCode)) = true
  · rw [if_pos h2] at h; exact Except.noConfusion h
  rw [if_neg h2] at h
  by_cases h3 : bank.bankName = ""
  · rw [if_pos h3] at h; exact Except.noConfusion h
  rw [if_neg h3] at h
  cases hbase : (if bank.swiftCodeBase = "" then goSlice8 (goToUpper bank.swiftCode)
                 else some bank.swiftCodeBase) with
  | none => rw [hbase] at h; exact Except.noConfusion h
  | some base =>
    rw [hbase] at h
    cases Except.ok.inj h
    refine ⟨rfl, fun hempty => ?_⟩
    rw [if_pos hempty, goSlice8] at hbase
    by_cases hlen : 8 ≤ goLen (goToUpper bank.swiftCode)
    · rw [if_pos hlen] at hbase
      exact (Option.some.inj hbase).symm
    · rw [if_neg hlen] at hbase
      exact Option.noConfusion hbase

/-- Inversion of a successful `createSwiftCode` run: the entity it
returned is exactly the output of the validation phase. -/
theorem createSwiftCode_ok_inv {repoC : SwiftBank → Except RepoError Unit}
    {bank out : SwiftBank} {n : Nat}
    (h : createSwiftCode repoC bank = ⟨.ok out, n⟩) :
    createSwiftCodeNormalize bank = .ok out := by
  cases hn : createSwiftCodeNormalize bank with
  | error e => simp [createSwiftCode, hn] at h
  | ok b0 =>
    cases hrep : repoC b0 with
    | ok u =>
      simp [createSwiftCode, hn, hrep] at h
      exact congrArg Except.ok h.1
    | error e =>
      cases e <;> simp [createSwiftCode, hn, hrep] at h

/-- The chunk builder flattens back to the remaining input after the
accumulated partial chunk. -/
theorem chunksGo_join {α : Type} :
    ∀ (rest : List α) (cap : Nat) (acc : List α),
      (chunksGo cap acc rest).flatten = acc.reverse ++ rest := by
  intro rest
  induction rest with
  | nil =>
    intro cap acc
    cases cap <;>
      · rw [chunksGo]
        by_cases hacc : acc.isEmpty
        · rw [if_pos hacc]
          simp [List.isEmpty_iff.mp hacc]
        · rw [if_neg hacc]
          simp
  | cons x xs ih =>
    intro cap acc
    cases cap with
    | zero => rw [chunksGo]; simp [ih]
    | succ c => rw [chunksGo]; simp [ih]

/-- Splitting into chunks loses no row and changes no order. -/
theorem chunksOf100_join {α : Type} (l : List α) : (chunksOf100 l).flatten = l := by
  cases l with
  | nil => rfl
  | cons x xs => rw [chunksOf100]; simp [chunksGo_join]

/-- Under the loop invariant `cap + acc.length = batchSize`, every
produced chunk is nonempty and has at most `batchSize` rows. -/
theorem chunksGo_sizes {α : Type} :
    ∀ (rest : List α) (cap : Nat) (acc : List α),
      cap + acc.length = batchSize → acc ≠ [] →
      ∀ c ∈ chunksGo cap acc rest, c ≠ [] ∧ c.length ≤ batchSize := by
  intro rest
  induction rest with
  | nil =>
    intro cap acc hinv hne c hc
    rw [chunksGo] at hc
    rw [if_neg (by simpa using hne)] at hc
    rcases List.mem_singleton.mp hc with rfl
    constructor
    · simpa using hne
    · simp; omega
  | cons x xs ih =>
    intro cap acc hinv hne c hc
    cases cap with
    | zero =>
      rw [chunksGo] at hc
      rcases List.mem_cons.mp hc with rfl | hc2
      · constructor
        · simpa using hne
        · simp; omega
      · exact ih (batchSize - 1) [x] (by simp [batchSize]) (by simp) c hc2
    | succ cp =>
      rw [chunksGo] at hc
      exact ih cp (x :: acc) (by simp at hinv ⊢; omega) (by simp) c hc

/-- Every chunk of `chunksOf100` is nonempty and has at most 100 rows. -/
theorem chunksOf100_sizes {α : Type} (l : List α) :
    ∀ c ∈ chunksOf100 l, c ≠ [] ∧ c.length ≤ batchSize := by
  cases l with
  | nil => intro c hc; cases hc
  | cons x xs =>
    rw [chunksOf100]
    exact chunksGo_sizes xs (batchSize - 1) [x] (by simp [batchSize]) (by simp)

/-- A chunk of already-normalized rows is its own normalization. -/
theorem normalizeChunk_id :
    ∀ {c : List SwiftBank}, (∀ b ∈ c, normalizeBankForInsert b = some b) →
      normalizeChunk c = some c := by
  intro c
  induction c with
  | nil => intro _; rfl
  | cons b bs ih =>
    intro h
    rw [normalizeChunk, h b (List.mem_cons_self b bs),
      ih (fun x hx => h x (List.mem_cons_of_mem b hx))]

/-- The chunk loop on `pre ++ cfail :: post` when every chunk of `pre`
executes successfully and `cfail`'s statement fails: the outcome is the
failing chunk's error, exactly the rows of `pre` were inserted, and
exactly `pre.length + 1` statements were issued. -/
theorem runChunks_fail {exec : List SwiftBank → Except String Nat} {m : String} :
    ∀ (pre : List (List SwiftBank)) (offset : Nat)
      (cfail : List SwiftBank) (post : List (List SwiftBank)),
      (∀ c ∈ pre ++ cfail :: post, normalizeChunk c = some c) →
      (∀ c ∈ pre, ∃ n, exec c = .ok n) →
      exec cfail = .error m →
      (runChunks exec offset (pre ++ cfail :: post)).outcome =
          .chunkFailed (offset + pre.flatten.length + 1)
            (offset + pre.flatten.length + cfail.length) m ∧
      (runChunks exec offset (pre ++ cfail :: post)).newRows = pre.flatten ∧
      (runChunks exec offset (pre ++ cfail :: post)).chunksAttempted = pre.length + 1 := by
  intro pre
  induction pre with
  | nil =>
    intro offset cfail post hnorm _ hfail
    have hn := hnorm cfail (List.mem_cons_self cfail post)
    simp only [List.nil_append, runChunks, hn, hfail]
    simp
  | cons c cs ih =>
    intro offset cfail post hnorm hpre hfail
    have hn := hnorm c (List.mem_cons_self c _)
    obtain ⟨k, hk⟩ := hpre c (List.mem_cons_self c cs)
    have hrec := ih (offset + c.length) cfail post
      (fun d hd => hnorm d (List.mem_cons_of_mem c hd))
      (fun d hd => hpre d (List.mem_cons_of_mem c hd)) hfail
    simp only [List.cons_append, runChunks, hn, hk, List.append_eq]
    refine ⟨?_, ?_, ?_⟩
    · rw [hrec.1]
      simp only [List.flatten_cons, List.length_append]
      congr 1 <;> omega
    · rw [hrec.2.1]; simp
    · rw [hrec.2.2]; simp

/-- The record loop of `ParseSwiftData` never emits a code from `seen`
and never emits a code twice. -/
theorem parseDataRows_nodup :
    ∀ {rows : List (List String)} {seen : List String} {ln : Nat}
      {out : List SwiftBankE},
      parseDataRows seen ln rows = .ok out →
      (∀ b ∈ out, b.swiftCode ∉ seen) ∧ (out.map (fun b => b.swiftCode)).Nodup := by
  intro rows
  induction rows with
  | nil =>
    intro seen ln out h
    cases Except.ok.inj h
    exact ⟨fun b hb => absurd hb (List.not_mem_nil b), List.nodup_nil⟩
  | cons record rest ih =>
    intro seen ln out h
    rw [parseDataRows] at h
    by_cases hlen : record.length < 4
    · rw [if_pos hlen] at h; exact Except.noConfusion h
    rw [if_neg hlen] at h
    by_cases hmiss : goToUpper (goTrim (record.getD 0 "")) = "" ∨
        goToUpper (goTrim (record.getD 1 "")) = "" ∨
        sanitizeBankName (record.getD 3 "") = ""
    · rw [if_pos hmiss] at h; exact Except.noConfusion h
    rw [if_neg hmiss] at h
    by_cases hseen : seen.contains (goToUpper (goTrim (record.getD 1 "")))
    · rw [if_pos hseen] at h
      exact ih h
    rw [if_neg hseen] at h
    by_cases hbic : (!bicMatch (goToUpper (goTrim (record.getD 1 "")))) = true
    · rw [if_pos hbic] at h; exact Except.noConfusion h
    rw [if_neg hbic] at h
    by_cases hcc : (!countryCodeMatch (goToUpper (goTrim (record.getD 0 "")))) = true
    · rw [if_pos hcc] at h; exact Except.noConfusion h
    rw [if_neg hcc] at h
    cases hval : validateSwiftBankEntry
        { swiftCode := goToUpper (goTrim (record.getD 1 ""))
          hqSwiftBase := goTake 8 (goToUpper (goTrim (record.getD 1 "")))
          countryISOCode := goToUpper (goTrim (record.getD 0 ""))
          bankName := sanitizeBankName (record.getD 3 "")
          entityType :=
            if goHasSuffix (goToUpper (goTrim (record.getD 1 ""))) "XXX" then .headquarters
            else .branch } with
    | error e => rw [hval] at h; exact Except.noConfusion h
    | ok u =>
      rw [hval] at h
      cases hrest : parseDataRows (goToUpper (goTrim (record.getD 1 "")) :: seen)
          (ln + 1) rest with
      | error e => rw [hrest] at h; exact Except.noConfusion h
      | ok banks =>
        rw [hrest] at h
        cases Except.ok.inj h
        obtain ⟨hnotin, hnd⟩ := ih hrest
        have hseenmem : goToUpper (goTrim (record.getD 1 "")) ∉ seen := by
          simpa using hseen
        constructor
        · intro b hb hbseen
          rcases List.mem_cons.mp hb with rfl | hb2
          · exact hseenmem hbseen
          · exact hnotin b hb2 (List.mem_cons_of_mem _ hbseen)
        · rw [List.map_cons]
          refine List.nodup_cons.mpr ⟨?_, hnd⟩
          intro hmem
          obtain ⟨b, hb, hbe⟩ := List.mem_map.mp hmem
          exact hnotin b hb (hbe ▸ List.mem_cons_self _ seen)

/-- A country code failing the ISO2 pattern after uppercasing makes the
validation phase of `CreateSwiftCode` fail with `ErrInvalidInput`
(either at the code check or at the country check). -/
theorem createSwiftCodeNormalize_invalid_country {bank : SwiftBank}
    (hc : countryCodeMatch (goToUpper bank.countryISOCode) = false) :
    createSwiftCodeNormalize bank = .error .invalidInput := by
  rw [createSwiftCodeNormalize]
  by_cases h1 : (!bicMatch (goToUpper bank.swiftCode)) = true
  · rw [if_pos h1]
  · rw [if_neg h1, if_pos (by simp [hc])]

/-! ### Claim theorems -/

/-- C1 (counterexample): `CreateSwiftCode` accepts an entity whose
caller-supplied `swift_code_base` is `"ZZZZZZZZ"` and keeps it, although
the first 8 characters of the code are `"ABCDUS33"` — so the accepted
entity violates `swift_code_base = swift_code[:8]`. -/
theorem createSwiftCode_keeps_caller_base :
    createSwiftCodeNormalize
        ⟨"ABCDUS33XXX", "ZZZZZZZZ", "US", "Bank", false, "addr", "United States"⟩ =
      .ok ⟨"ABCDUS33XXX", "ZZZZZZZZ", "US", "Bank", true, "addr", "United States"⟩ ∧
    "ZZZZZZZZ" ≠ goTake 8 "ABCDUS33XXX" := by decide

/-- C1 (amended): every entity accepted by `ParseSwiftBanks` satisfies
`is_headquarters = swift_code.endsWith "XXX"` and
`swift_code_base = swift_code[:8]`; every entity accepted by
`CreateSwiftCode` has `is_headquarters` derived from the suffix (never
taken from the caller), and its `swift_code_base` equals the first 8
characters of the code whenever the caller left the base unset. -/
theorem derived_fields_parser_service :
    (∀ records banks, parseSwiftBanks records = .ok banks →
      ∀ b ∈ banks, b.isHeadquarter = goHasSuffix b.swiftCode "XXX" ∧
        b.swiftCodeBase = goTake 8 b.swiftCode) ∧
    (∀ (repoC : SwiftBank → Except RepoError Unit) (bank out : SwiftBank) (n : Nat),
      createSwiftCode repoC bank = ⟨.ok out, n⟩ →
      out.isHeadquarter = goHasSuffix out.swiftCode "XXX" ∧
      (bank.swiftCodeBase = "" → out.swiftCodeBase = goTake 8 out.swiftCode)) := by
  constructor
  · intro records banks h b hb
    obtain ⟨r, _, hok⟩ := parseSwiftBanks_ok_mem h b hb
    obtain ⟨hbic, rfl⟩ := parseRecord_ok hok
    have hlen : 8 ≤ goLen r.swiftCode := by
      have : goLen r.swiftCode = r.swiftCode.data.length := rfl
      rcases bicMatch_length hbic with h8 | h11 <;> omega
    exact ⟨rfl, by simp only [if_pos hlen]⟩
  · intro repoC bank out n h
    exact createSwiftCodeNormalize_ok (createSwiftCode_ok_inv h)

/-- C1 (witness): the amended theorem at the one-record batch for
`ABCDUS33XXX`. -/
theorem derived_fields_parser_service_witness :
    (⟨"ABCDUS33XXX", "ABCDUS33", "US", "Chase", true, "addr", "United States"⟩ :
        SwiftBank).isHeadquarter =
      goHasSuffix (⟨"ABCDUS33XXX", "ABCDUS33", "US", "Chase", true, "addr",
        "United States"⟩ : SwiftBank).swiftCode "XXX" ∧
    (⟨"ABCDUS33XXX", "ABCDUS33", "US", "Chase", true, "addr", "United States"⟩ :
        SwiftBank).swiftCodeBase =
      goTake 8 (⟨"ABCDUS33XXX", "ABCDUS33", "US", "Chase", true, "addr",
        "United States"⟩ : SwiftBank).swiftCode :=
  derived_fields_parser_service.1
    [⟨1, "ABCDUS33XXX", "Chase", "US", "addr", "United States"⟩]
    [⟨"ABCDUS33XXX", "ABCDUS33", "US", "Chase", true, "addr", "United States"⟩]
    (by decide)
    ⟨"ABCDUS33XXX", "ABCDUS33", "US", "Chase", true, "addr", "United States"⟩
    (by decide)

/-- C2 (code bug): with the valid 8-column header, a data row with 8
fields — the header's field count — is rejected with the
`row 1: invalid length` error (because of the reader's `len(row) != 5`
check), and a 5-field row is rejected by the csv reader's field-count
enforcement instead of the `invalid length` error; no data row is ever
accepted. -/
theorem reader_rejects_rows_matching_header_width :
    loadSwiftBanks [goSplitComma expectedHeader,
        ["US", "CHASUS33", "N", "Chase Bank", "123 Main St", "New York",
         "United States", "EST"]] =
      .error (.rowInvalidLength 1) ∧
    loadSwiftBanks [goSplitComma expectedHeader,
        ["US", "CHASUS33", "N", "Chase Bank", "123 Main St"]] =
      .error (.csvFieldCount 1) := by decide

/-- C3 (counterexample): two `CreateBatch` runs over 101 rows in which
the store commits 100 rows in one run and 0 in the other (the driver
reports different affected counts for the successful first chunk, then
the second chunk fails) return the identical caller-visible result — an
error naming only the failing chunk's row range — so the result carries
no count of inserted rows. -/
theorem createBatch_outcome_hides_committed_count :
    (createBatch (fun c => if c.length == 100 then .ok 100 else .error "boom")
        (List.replicate 101
          ⟨"ABCDUS33XXX", "ABCDUS33", "US", "Bank", true, "addr", "United States"⟩)).outcome =
      (createBatch (fun c => if c.length == 100 then .ok 0 else .error "boom")
        (List.replicate 101
          ⟨"ABCDUS33XXX", "ABCDUS33", "US", "Bank", true, "addr", "United States"⟩)).outcome ∧
    (createBatch (fun c => if c.length == 100 then .ok 100 else .error "boom")
        (List.replicate 101
          ⟨"ABCDUS33XXX", "ABCDUS33", "US", "Bank", true, "addr", "United States"⟩)).outcome =
      .chunkFailed 101 101 "boom" ∧
    (createBatch (fun c => if c.length == 100 then .ok 100 else .error "boom")
        (List.replicate 101
          ⟨"ABCDUS33XXX", "ABCDUS33", "US", "Bank", true, "addr", "United States"⟩)).insertedRows = 100 ∧
    (createBatch (fun c => if c.length == 100 then .ok 0 else .error "boom")
        (List.replicate 101
          ⟨"ABCDUS33XXX", "ABCDUS33", "US", "Bank", true, "addr", "United States"⟩)).insertedRows = 0 := by
  decide

/-- C3 (amended): when a chunk of `CreateBatch` fails, the value
returned to the caller is determined by the failing chunk's position,
row range and driver message alone; it is independent of how many rows
the earlier chunks committed, so the caller learns only an error, never
a committed-versus-requested count. -/
theorem createBatch_outcome_independent_of_committed_count
    (exec1 exec2 : List SwiftBank → Except String Nat) (banks : List SwiftBank)
    (pre : List (List SwiftBank)) (cfail : List SwiftBank)
    (post : List (List SwiftBank)) (m : String)
    (hnorm : ∀ b ∈ banks, normalizeBankForInsert b = some b)
    (hsplit : chunksOf100 banks = pre ++ cfail :: post)
    (hpre1 : ∀ c ∈ pre, ∃ n, exec1 c = .ok n)
    (hpre2 : ∀ c ∈ pre, ∃ n, exec2 c = .ok n)
    (hfail1 : exec1 cfail = .error m)
    (hfail2 : exec2 cfail = .error m) :
    (createBatch exec1 banks).outcome = (createBatch exec2 banks).outcome := by
  have hflat : (chunksOf100 banks).flatten = banks := chunksOf100_join banks
  have hchunknorm : ∀ c ∈ pre ++ cfail :: post, normalizeChunk c = some c := by
    intro c hc
    apply normalizeChunk_id
    intro b hb
    apply hnorm
    rw [← hflat, hsplit]
    exact List.mem_flatten.mpr ⟨c, hc, hb⟩
  have hrunA := runChunks_fail pre 0 cfail post hchunknorm hpre1 hfail1
  have hrunB := runChunks_fail pre 0 cfail post hchunknorm hpre2 hfail2
  rw [createBatch, createBatch, hsplit, hrunA.1, hrunB.1]

/-- C3 (witness): the amended theorem at the 101-row batch whose first
chunk commits 100 rows under one driver behavior and 0 under another. -/
theorem createBatch_outcome_independent_witness :
    (createBatch (fun c => if c.length == 100 then .ok 100 else .error "boom")
        (List.replicate 101
          ⟨"ABCDUS33XXX", "ABCDUS33", "US", "Bank", true, "addr", "United States"⟩)).outcome =
      (createBatch (fun c => if c.length == 100 then .ok 0 else .error "boom")
        (List.replicate 101
          ⟨"ABCDUS33XXX", "ABCDUS33", "US", "Bank", true, "addr", "United States"⟩)).outcome :=
  createBatch_outcome_independent_of_committed_count
    (fun c => if c.length == 100 then .ok 100 else .error "boom")
    (fun c => if c.length == 100 then .ok 0 else .error "boom")
    (List.replicate 101
      ⟨"ABCDUS33XXX", "ABCDUS33", "US", "Bank", true, "addr", "United States"⟩)
    [List.replicate 100
      ⟨"ABCDUS33XXX", "ABCDUS33", "US", "Bank", true, "addr", "United States"⟩]
    [⟨"ABCDUS33XXX", "ABCDUS33", "US", "Bank", true, "addr", "United States"⟩]
    [] "boom"
    (by decide) (by decide)
    (fun c hc => by rw [List.mem_singleton.mp hc]; exact ⟨100, by decide⟩)
    (fun c hc => by rw [List.mem_singleton.mp hc]; exact ⟨0, by decide⟩)
    (by decide) (by decide)

/-- C4: `GetByCode` fails with `NotFound` exactly when no stored row
carries the uppercase-normalized code; a successful lookup returns a
stored entity with that exact code, and when it is a headquarters the
returned branches are exactly the stored rows sharing its
`swift_code_base` with `is_headquarters = false` (no other base, no
headquarters row); a non-headquarters entity comes with no branches. -/
theorem getByCode_exact_match_and_branches (table : List SwiftBank) (code : String) :
    ((∀ b ∈ table, b.swiftCode ≠ goToUpper code) →
      getByCode table code = .error .notFound) ∧
    ((∃ b ∈ table, b.swiftCode = goToUpper code) →
      ∃ d, getByCode table code = .ok d) ∧
    (∀ d, getByCode table code = .ok d →
      d.bank ∈ table ∧ d.bank.swiftCode = goToUpper code ∧
      (d.bank.isHeadquarter = true →
        ∀ b, b ∈ d.branches ↔
          (b ∈ table ∧ b.swiftCodeBase = d.bank.swiftCodeBase ∧
            b.isHeadquarter = false)) ∧
      (d.bank.isHeadquarter = false → d.branches = [])) := by
  refine ⟨?_, ?_, ?_⟩
  · intro hno
    have hfind : table.find? (fun b => b.swiftCode == goToUpper code) = none := by
      rw [List.find?_eq_none]
      intro b hb
      simpa using hno b hb
    rw [getByCode, getBankByCode, hfind]
  · rintro ⟨b, hb, hcode⟩
    cases hfind : table.find? (fun x => x.swiftCode == goToUpper code) with
    | none =>
      rw [List.find?_eq_none] at hfind
      exact absurd (show (b.swiftCode == goToUpper code) = true by
        simpa using hcode) (hfind b hb)
    | some bk =>
      simp only [getByCode, getBankByCode, hfind]
      split
      · exact ⟨_, rfl⟩
      · exact ⟨_, rfl⟩
  · intro d hd
    cases hfind : table.find? (fun x => x.swiftCode == goToUpper code) with
    | none =>
      rw [getByCode, getBankByCode, hfind] at hd
      exact Except.noConfusion hd
    | some bk =>
      have hmem := List.mem_of_find?_eq_some hfind
      have hpred := List.find?_some hfind
      simp only [getByCode, getBankByCode, hfind] at hd
      by_cases hq : bk.isHeadquarter = true
      · rw [if_pos hq] at hd
        cases Except.ok.inj hd
        refine ⟨hmem, by simpa using hpred, ?_, ?_⟩
        · intro _ b
          simp [getBranchesByHQBase, List.mem_filter]
        · intro hfalse
          rw [hq] at hfalse
          exact Bool.noConfusion hfalse
      · rw [if_neg hq] at hd
        cases Except.ok.inj hd
        refine ⟨hmem, by simpa using hpred, ?_, fun _ => rfl⟩
        intro htrue
        exact absurd htrue hq

/-- C4 (witness): the theorem at a one-row table — a lookup of the
absent code `ZZZZUS00XXX` fails with `NotFound`, and a lowercase query
for the stored code succeeds. -/
theorem getByCode_exact_match_and_branches_witness :
    getByCode [⟨"ABCDUS33XXX", "ABCDUS33", "US", "Bank", true, "addr", "United States"⟩]
        "ZZZZUS00XXX" = .error .notFound ∧
    ∃ d, getByCode [⟨"ABCDUS33XXX", "ABCDUS33", "US", "Bank", true, "addr", "United States"⟩]
        "abcdus33xxx" = .ok d :=
  ⟨(getByCode_exact_match_and_branches
      [⟨"ABCDUS33XXX", "ABCDUS33", "US", "Bank", true, "addr", "United States"⟩]
      "ZZZZUS00XXX").1 (by decide),
   (getByCode_exact_match_and_branches
      [⟨"ABCDUS33XXX", "ABCDUS33", "US", "Bank", true, "addr", "United States"⟩]
      "abcdus33xxx").2.1 (by decide)⟩

/-- C5: a record whose code has fewer than 8 characters makes
`ParseSwiftBanks` fail, and every entity of a successful batch has a
code of at least 8 characters with `swift_code_base` equal to its first
8 characters — never a truncated or reused shorter code. -/
theorem validation_rejects_short_codes :
    (∀ records (r : SwiftBankRecord), r ∈ records → goLen r.swiftCode < 8 →
      ∃ e, parseSwiftBanks records = .error e) ∧
    (∀ records banks, parseSwiftBanks records = .ok banks →
      ∀ b ∈ banks, 8 ≤ goLen b.swiftCode ∧ b.swiftCodeBase = goTake 8 b.swiftCode) := by
  constructor
  · intro records r hr hlen
    exact parseSwiftBanks_error_of_mem hr (parseRecord_short hlen)
  · intro records banks h b hb
    obtain ⟨r, _, hok⟩ := parseSwiftBanks_ok_mem h b hb
    obtain ⟨hbic, rfl⟩ := parseRecord_ok hok
    have hlen : 8 ≤ goLen r.swiftCode := by
      have : goLen r.swiftCode = r.swiftCode.data.length := rfl
      rcases bicMatch_length hbic with h8 | h11 <;> omega
    exact ⟨hlen, by simp only [if_pos hlen]⟩

/-- C5 (witness): the theorem at the 3-character code `ABC`. -/
theorem validation_rejects_short_codes_witness :
    ∃ e, parseSwiftBanks [⟨1, "ABC", "Bank", "US", "addr", "Poland"⟩] = .error e :=
  validation_rejects_short_codes.1
    [⟨1, "ABC", "Bank", "US", "addr", "Poland"⟩]
    ⟨1, "ABC", "Bank", "US", "addr", "Poland"⟩
    (by decide) (by decide)

/-- C6 (code bug): `Repository.Create` reaches the slice
`bank.SwiftCode[:8]` with no preceding length check — on an entity with
the 3-character code `ABC` and an empty base the out-of-bounds failure
(runtime panic) is reached. -/
theorem repoCreate_short_code_panics :
    repoCreate [] ⟨"ABC", "", "US", "Bank", false, "addr", "Poland"⟩ = .panicked := by
  decide

/-- C7 (counterexample): the lowercase identifier `abcdus33` fails the
BIC regex, yet `GetSwiftCodeDetails` does not return `InvalidInput`: it
uppercases before matching, issues one repository call and surfaces its
`NotFound`. -/
theorem service_regex_checked_after_uppercasing :
    bicMatch "abcdus33" = false ∧
    getSwiftCodeDetails (fun _ => .error .notFound) "abcdus33" =
      ⟨.error .notFound, 1⟩ := by decide

/-- C7 (amended): an identifier whose uppercase normalization fails the
BIC regex (for codes) or the ISO2 regex (for country codes) makes the
service return `InvalidInput` with zero repository calls; in particular
any create with `country_iso_code = "USA"` yields `InvalidInput`
without reaching the repository. -/
theorem service_invalid_input_short_circuits :
    (∀ (repoGet : String → Except RepoError SwiftBankDetail) (code : String),
      bicMatch (goToUpper code) = false →
      getSwiftCodeDetails repoGet code = ⟨.error .invalidInput, 0⟩) ∧
    (∀ (repoC : SwiftBank → Except RepoError Unit) (bank : SwiftBank),
      countryCodeMatch (goToUpper bank.countryISOCode) = false →
      createSwiftCode repoC bank = ⟨.error .invalidInput, 0⟩) ∧
    (∀ (repoC : SwiftBank → Except RepoError Unit) (bank : SwiftBank),
      bank.countryISOCode = "USA" →
      createSwiftCode repoC bank = ⟨.error .invalidInput, 0⟩) := by
  have h2 : ∀ (repoC : SwiftBank → Except RepoError Unit) (bank : SwiftBank),
      countryCodeMatch (goToUpper bank.countryISOCode) = false →
      createSwiftCode repoC bank = ⟨.error .invalidInput, 0⟩ := by
    intro repoC bank hc
    rw [createSwiftCode, createSwiftCodeNormalize_invalid_country hc]
  refine ⟨?_, h2, ?_⟩
  · intro repoGet code hc
    rw [getSwiftCodeDetails, if_pos (by simp [hc])]
  · intro repoC bank hc
    exact h2 repoC bank (by rw [hc]; decide)

/-- C7 (witness): the amended theorem at a create whose country code is
the 3-letter `USA`. -/
theorem service_invalid_input_short_circuits_witness :
    createSwiftCode (fun _ => .ok ())
        ⟨"ABCDUS33XXX", "", "USA", "Bank", false, "addr", "United States"⟩ =
      ⟨.error .invalidInput, 0⟩ :=
  service_invalid_input_short_circuits.2.2 (fun _ => .ok ())
    ⟨"ABCDUS33XXX", "", "USA", "Bank", false, "addr", "United States"⟩ rfl

/-- C8: `CreateBatch` splits its input into chunks of at most 100 rows
(losing no row and keeping order), executes one insert statement per
chunk; when the statement of the chunk after `pre` fails, the call
returns the failing chunk's error, exactly the rows of the earlier
chunks remain committed, and exactly `pre.length + 1` statements were
issued — no later chunk is attempted. -/
theorem createBatch_chunking_and_abort
    (exec : List SwiftBank → Except String Nat) (banks : List SwiftBank)
    (pre : List (List SwiftBank)) (cfail : List SwiftBank)
    (post : List (List SwiftBank)) (m : String)
    (hnorm : ∀ b ∈ banks, normalizeBankForInsert b = some b)
    (hsplit : chunksOf100 banks = pre ++ cfail :: post)
    (hpre : ∀ c ∈ pre, ∃ n, exec c = .ok n)
    (hfail : exec cfail = .error m) :
    (createBatch exec banks).outcome =
      .chunkFailed (pre.flatten.length + 1) (pre.flatten.length + cfail.length) m ∧
    (createBatch exec banks).newRows = pre.flatten ∧
    (createBatch exec banks).chunksAttempted = pre.length + 1 ∧
    (chunksOf100 banks).flatten = banks ∧
    (∀ c ∈ chunksOf100 banks, c ≠ [] ∧ c.length ≤ batchSize) := by
  have hflat : (chunksOf100 banks).flatten = banks := chunksOf100_join banks
  have hchunknorm : ∀ c ∈ pre ++ cfail :: post, normalizeChunk c = some c := by
    intro c hc
    apply normalizeChunk_id
    intro b hb
    apply hnorm
    rw [← hflat, hsplit]
    exact List.mem_flatten.mpr ⟨c, hc, hb⟩
  have hrun := runChunks_fail pre 0 cfail post hchunknorm hpre hfail
  refine ⟨?_, ?_, ?_, hflat, chunksOf100_sizes banks⟩
  · rw [createBatch, hsplit]
    simpa using hrun.1
  · rw [createBatch, hsplit]
    exact hrun.2.1
  · rw [createBatch, hsplit]
    exact hrun.2.2

/-- C8 (witness): the theorem at a one-row batch whose single chunk
statement fails: the outcome names rows 1 through 1. -/
theorem createBatch_chunking_and_abort_witness :
    (createBatch (fun _ => .error "boom")
        [⟨"ABCDUS33XXX", "ABCDUS33", "US", "Bank", true, "addr", "United States"⟩]).outcome =
      .chunkFailed 1 1 "boom" :=
  (createBatch_chunking_and_abort (fun _ => .error "boom")
    [⟨"ABCDUS33XXX", "ABCDUS33", "US", "Bank", true, "addr", "United States"⟩]
    [] [⟨"ABCDUS33XXX", "ABCDUS33", "US", "Bank", true, "addr", "United States"⟩]
    [] "boom" (by decide) (by decide) (by simp) (by decide)).1

/-- C9 (code bug): `LoadSwiftBanks` answers zero-byte input with an
empty record sequence and no error — exactly the result of a valid
header with zero data rows — although its own test expects the `io.EOF`
end-of-input error for empty input. -/
theorem reader_accepts_empty_input :
    loadSwiftBanks [] = .ok [] ∧
    loadSwiftBanks [goSplitComma expectedHeader] = .ok [] := by decide

/-- C10 (counterexample): `ParseSwiftBanks` applies no duplicate policy:
a batch with the same code twice is accepted and its output contains two
entities with the same `swift_code`. -/
theorem parseSwiftBanks_emits_duplicates :
    parseSwiftBanks
        [⟨1, "ABCDUS33XXX", "Chase", "US", "addr", "United States"⟩,
         ⟨2, "ABCDUS33XXX", "Chase", "US", "addr", "United States"⟩] =
      .ok [⟨"ABCDUS33XXX", "ABCDUS33", "US", "Chase", true, "addr", "United States"⟩,
           ⟨"ABCDUS33XXX", "ABCDUS33", "US", "Chase", true, "addr", "United States"⟩] := by
  decide

/-- C10 (amended): the enumerated-type parser `ParseSwiftData` ignores
every occurrence of a code after the first, so its output never
contains two entities with the same `swift_code`; `ParseSwiftBanks`
applies no duplicate policy at all (see the counterexample). -/
theorem parseSwiftData_output_nodup :
    ∀ (input : List (List String)) (out : List SwiftBankE),
      parseSwiftData input = .ok out →
      (out.map (fun b => b.swiftCode)).Nodup := by
  intro input out h
  cases input with
  | nil => exact Except.noConfusion h
  | cons header rest =>
    rw [parseSwiftData] at h
    by_cases hlen : header.length < 4
    · rw [if_pos hlen] at h
      exact Except.noConfusion h
    rw [if_neg hlen] at h
    cases hrows : parseDataRows [] 1 rest with
    | error e =>
      rw [hrows] at h
      exact Except.noConfusion h
    | ok banks =>
      rw [hrows] at h
      have h2 : (if banks.isEmpty = true then
          (Except.error ParseDataError.noValidRecords : Except ParseDataError (List SwiftBankE))
          else .ok banks) = .ok out := h
      by_cases hemp : banks.isEmpty
      · rw [if_pos hemp] at h2
        exact Except.noConfusion h2
      · rw [if_neg hemp] at h2
        cases Except.ok.inj h2
        exact (parseDataRows_nodup hrows).2

/-- C10 (witness): the amended theorem at an input repeating
`ABCDUS33XXX` twice: the output keeps a single occurrence. -/
theorem parseSwiftData_output_nodup_witness :
    (([⟨"ABCDUS33XXX", "ABCDUS33", "US", "Chase Bank", .headquarters⟩] :
        List SwiftBankE).map (fun b => b.swiftCode)).Nodup :=
  parseSwiftData_output_nodup
    [["CC", "SS", "T", "NM"],
     ["US", "ABCDUS33XXX", "BIC11", "Chase Bank"],
     ["US", "ABCDUS33XXX", "BIC11", "Chase Bank"]]
    [⟨"ABCDUS33XXX", "ABCDUS33", "US", "Chase Bank", .headquarters⟩]
    (by decide)

end SwiftCodes